import Mathlib

/-!
# Verification of the fisio-rag-graph retrieval / ingestion core

Shallow embedding of the query-time hybrid retrieval engine
(`src/agent/tools.py`, `src/agent/db_utils.py`) and of the write-time
ingestion pipeline (`src/ingestion/ingest.py`,
`src/ingestion/graph_builder.py`), together with theorems settling the
behavioural claims about score fusion, reranking, truncation, entity
extraction and partial-failure aggregation.

Modelling conventions:
* Python strings are modelled as `List Char` (ASCII case folding models
  `str.lower()`); Python floats that only feed comparisons are modelled
  as `ℚ`.
* External collaborators (embedding provider, relational/vector store,
  graph store, cross-encoder model, chunker) are modelled as explicit
  oracle fields of an environment record; a Python exception raised by a
  call is an `Except.error` / `Option.some` outcome of the oracle.
-/

set_option maxRecDepth 4000

namespace FisioRag

/-! ## Episode Content Builder (`GraphBuilder._prepare_episode_content`) -/

/-! ## Query-time retrieval (`src/agent/tools.py`, `src/agent/db_utils.py`)

Scores (Python floats) are modelled as rationals; they only feed
comparisons and field assignments in the claims below. -/

/-! ## Write-time ingestion (`src/ingestion/ingest.py`, `src/ingestion/graph_builder.py`) -/

/-- Python strings modelled as lists of characters. -/
abbrev Chars := List Char

/-- `str.lower()` (ASCII case folding). -/
def lowerChars (l : Chars) : Chars := l.map Char.toLower

/-- The Python substring test `pat in text`: a scan over all start
positions of `text` (source: the `in` checks of
`GraphBuilder._extract_pathological_conditions` /
`_extract_treatment_procedures` / `_extract_medical_devices`). -/
def containsSub (pat text : Chars) : Bool :=
  (List.range (text.length + 1)).any fun i =>
    (text.drop i).take pat.length == pat

/-- Specification-side notion of "occurs as a plain substring". -/
def OccursIn (pat text : Chars) : Prop := ∃ s t, text = s ++ pat ++ t

/-- A regex word character (`\w`): alphanumeric or underscore. -/
def isWordChar (c : Char) : Bool := c.isAlphanum || c == '_'

/-- Whether position `i` of `text` holds a word character
(out-of-range positions count as non-word). -/
def wordAt (text : Chars) (i : Nat) : Bool :=
  match text.get? i with
  | some c => isWordChar c
  | none => false

/-- The regex boundary `\b` at position `p` of `text`: the word-ness of
the characters on the two sides of `p` differs. -/
def boundaryAt (text : Chars) (p : Nat) : Bool :=
  (if p = 0 then false else wordAt text (p - 1)) != wordAt text p

/-- Python `re.search(r'\b' + re.escape(pat) + r'\b', text)` for a literal
`pat` (source: `GraphBuilder._extract_anatomical_structures`): some
occurrence of `pat` delimited by `\b` on both sides. -/
def matchWordBounded (pat text : Chars) : Bool :=
  (List.range (text.length + 1)).any fun i =>
    ((text.drop i).take pat.length == pat) && boundaryAt text i &&
      boundaryAt text (i + pat.length)

/-- The Entity Dictionary: one term list per category
(`GraphBuilder.entity_lists`; the Python sets are modelled as lists —
the claims settled here only concern membership). -/
structure EntityLists where
  anatomical_structures : List Chars
  pathological_conditions : List Chars
  treatment_procedures : List Chars
  medical_devices : List Chars
deriving DecidableEq

/-- `GraphBuilder._extract_anatomical_structures`: case-insensitive,
word-boundary-delimited dictionary matching. -/
def extractAnatomicalStructures (el : EntityLists) (text : Chars) : List Chars :=
  el.anatomical_structures.filter fun s =>
    matchWordBounded (lowerChars s) (lowerChars text)

/-- `GraphBuilder._extract_pathological_conditions`: case-insensitive
plain substring matching. -/
def extractPathologicalConditions (el : EntityLists) (text : Chars) : List Chars :=
  el.pathological_conditions.filter fun c =>
    containsSub (lowerChars c) (lowerChars text)

/-- `GraphBuilder._extract_treatment_procedures`: case-insensitive
plain substring matching. -/
def extractTreatmentProcedures (el : EntityLists) (text : Chars) : List Chars :=
  el.treatment_procedures.filter fun p =>
    containsSub (lowerChars p) (lowerChars text)

/-- `GraphBuilder._extract_medical_devices`: case-insensitive plain
substring matching. -/
def extractMedicalDevices (el : EntityLists) (text : Chars) : List Chars :=
  el.medical_devices.filter fun d =>
    containsSub (lowerChars d) (lowerChars text)

/-- The configured content limit (`max_content_length = 6000`). -/
def maxContentLength : Nat := 6000

/-- Scan for the last index at which one of `". "`, `"! "`, `"? "`
begins; equals `max(truncated.rfind('. '), truncated.rfind('! '),
truncated.rfind('? '))` with `none` standing for Python's `-1`. -/
def lastSentenceEndAux : Chars → Nat → Option Nat → Option Nat
  | [], _, acc => acc
  | [_], _, acc => acc
  | c1 :: c2 :: rest, i, acc =>
      lastSentenceEndAux (c2 :: rest) (i + 1)
        (if (c1 == '.' || c1 == '!' || c1 == '?') && c2 == ' ' then some i else acc)

def lastSentenceEnd (l : Chars) : Option Nat := lastSentenceEndAux l 0 none

/-- The truncation step of `_prepare_episode_content`: contents longer
than the limit are cut at the last sentence terminator when its index
exceeds `max_content_length * 0.7` (the Nat inequality `10 * p > 7 *
maxContentLength` is exactly `p > 4200.0`), and hard-cut at the limit
otherwise; a marker is appended in both cases. -/
def truncateContent (content : Chars) : Chars :=
  if content.length > maxContentLength then
    match lastSentenceEnd (content.take maxContentLength) with
    | some p =>
        if 10 * p > 7 * maxContentLength then
          (content.take maxContentLength).take (p + 1) ++ (" [TRUNCATED]").toList
        else
          content.take maxContentLength ++ ("... [TRUNCATED]").toList
    | none => content.take maxContentLength ++ ("... [TRUNCATED]").toList
  else content

/-- `GraphBuilder._prepare_episode_content`: the (possibly truncated)
content, with a `[Doc: <title[:50]>]` context line prepended when the
title is non-empty and the content leaves at least 100 characters of
room under the limit. -/
def prepareEpisodeContent (documentTitle content0 : Chars) : Chars :=
  if documentTitle ≠ [] ∧ (truncateContent content0).length < maxContentLength - 100 then
    ("[Doc: ").toList ++ documentTitle.take 50 ++ ("]\n\n").toList ++ truncateContent content0
  else truncateContent content0

/-- Concrete over-limit fragment content: 4500 copies of `a`, a sentence
terminator, then 1499 copies of `b` (6001 characters in total; the last
terminator of the 6000-character window sits at index 4500 > 4200). -/
def c6Content : Chars := List.replicate 4500 'a' ++ '.' :: ' ' :: List.replicate 1499 'b'

/-- `ChunkResult` (`src/agent/models.py`); `metadata` is an opaque
string-keyed map, modelled as an association list. -/
structure ChunkResult where
  chunk_id : String
  document_id : String
  content : Chars
  score : ℚ
  metadata : List (String × String)
  document_title : String
  document_source : String
deriving DecidableEq

/-- One row of `db_utils.vector_search` (the `match_chunks` store
function): vector similarity only. -/
structure VectorRow where
  chunk_id : String
  document_id : String
  content : Chars
  similarity : ℚ
  metadata : List (String × String)
  document_title : String
  document_source : String
deriving DecidableEq

/-- One row of `db_utils.hybrid_search` (the `hybrid_search` store
function — the Hybrid Score Fuser): combined, vector and text scores. -/
structure HybridRow where
  chunk_id : String
  document_id : String
  content : Chars
  combined_score : ℚ
  vector_similarity : ℚ
  text_similarity : ℚ
  metadata : List (String × String)
  document_title : String
  document_source : String
deriving DecidableEq

/-- The `ChunkResult(...)` construction applied to a vector-search row in
`vector_search_tool` / `hybrid_search_tool` (`score = similarity`). -/
def vectorRowToChunk (r : VectorRow) : ChunkResult :=
  { chunk_id := r.chunk_id
    document_id := r.document_id
    content := r.content
    score := r.similarity
    metadata := r.metadata
    document_title := r.document_title
    document_source := r.document_source }

/-- Modelled from the spec (§4.1, §6): the Scored Candidate a fuser row
would yield (`score = combinedScore`); used only to state what C1 claims
the candidate pool to be — `tools.py` itself never builds it. -/
def hybridRowToChunk (r : HybridRow) : ChunkResult :=
  { chunk_id := r.chunk_id
    document_id := r.document_id
    content := r.content
    score := r.combined_score
    metadata := r.metadata
    document_title := r.document_title
    document_source := r.document_source }

/-- The external collaborators of the retrieval path: embedding
provider, the store's pure-vector and hybrid search functions, and the
optional cross-encoder relevance model. An `Except.error` outcome is a
raised Python exception. -/
structure RetrievalEnv where
  generateEmbedding : Chars → Except String (List ℚ)
  vectorSearch : List ℚ → Nat → Except String (List VectorRow)
  hybridSearch : List ℚ → Chars → Nat → ℚ → Except String (List HybridRow)
  crossEncoder : Option (Chars → Chars → ℚ)

/-- `HybridSearchInput` (`src/agent/tools.py`). -/
structure HybridSearchInput where
  query : Chars
  limit : Nat := 5
  initial_retrieval_size : Nat := 15

/-- `VectorSearchInput` (`src/agent/tools.py`). -/
structure VectorSearchInput where
  query : Chars
  limit : Nat := 10

/-- `rerank_documents` (`src/agent/tools.py`): identity on the empty
list and when the cross-encoder is unavailable; otherwise each
candidate's `score` is overwritten with the model score of
`(query, content)` and the list is re-sorted by descending score
(Python's stable `sorted(..., reverse=True)`). -/
instance : DecidableRel (fun a b : ChunkResult => b.score ≤ a.score) :=
  fun a b => inferInstanceAs (Decidable (b.score ≤ a.score))

def rerank_documents (crossEncoder : Option (Chars → Chars → ℚ)) (query : Chars)
    (documents : List ChunkResult) : List ChunkResult :=
  if documents = [] then []
  else
    match crossEncoder with
    | none => documents
    | some model =>
        (List.zipWith (fun doc s => { doc with score := s }) documents
          (documents.map fun doc => model query doc.content)).insertionSort
            fun a b => b.score ≤ a.score

/-- The `try` body of `hybrid_search_tool`: embed the query, retrieve
`initial_retrieval_size` candidates with the PURE-VECTOR search, return
early on an empty pool, rerank, cut to `limit`. -/
def hybridSearchToolBody (env : RetrievalEnv) (input : HybridSearchInput) :
    Except String (List ChunkResult) :=
  match env.generateEmbedding input.query with
  | Except.error e => Except.error e
  | Except.ok embedding =>
    match env.vectorSearch embedding input.initial_retrieval_size with
    | Except.error e => Except.error e
    | Except.ok initial_results =>
      if initial_results = [] then Except.ok []
      else
        Except.ok ((rerank_documents env.crossEncoder input.query
          (initial_results.map vectorRowToChunk)).take input.limit)

/-- `hybrid_search_tool`: the catch-all `except` logs and returns `[]`. -/
def hybrid_search_tool (env : RetrievalEnv) (input : HybridSearchInput) :
    Except String (List ChunkResult) :=
  match hybridSearchToolBody env input with
  | Except.ok r => Except.ok r
  | Except.error _ => Except.ok []

/-- The `try` body of `vector_search_tool`. -/
def vectorSearchToolBody (env : RetrievalEnv) (input : VectorSearchInput) :
    Except String (List ChunkResult) :=
  match env.generateEmbedding input.query with
  | Except.error e => Except.error e
  | Except.ok embedding =>
    match env.vectorSearch embedding input.limit with
    | Except.error e => Except.error e
    | Except.ok results => Except.ok (results.map vectorRowToChunk)

/-- `vector_search_tool`: the catch-all `except` logs and returns `[]`. -/
def vector_search_tool (env : RetrievalEnv) (input : VectorSearchInput) :
    Except String (List ChunkResult) :=
  match vectorSearchToolBody env input with
  | Except.ok r => Except.ok r
  | Except.error _ => Except.ok []

/-! Concrete rows and environments used by the counterexamples and
witnesses below: the pure-vector search and the hybrid fuser return
observably different candidates. -/

def vrow1 : VectorRow :=
  { chunk_id := "v1", document_id := "d1", content := ['v'], similarity := 1/2,
    metadata := [], document_title := "tv", document_source := "sv" }

def hrow1 : HybridRow :=
  { chunk_id := "h1", document_id := "d1", content := ['h'], combined_score := 3/4,
    vector_similarity := 1/2, text_similarity := 1/4,
    metadata := [], document_title := "th", document_source := "sh" }

def envC1 : RetrievalEnv :=
  { generateEmbedding := fun _ => Except.ok [1]
    vectorSearch := fun _ _ => Except.ok [vrow1]
    hybridSearch := fun _ _ _ _ => Except.ok [hrow1]
    crossEncoder := none }

def inputC1 : HybridSearchInput := { query := ['q'], limit := 5, initial_retrieval_size := 15 }

def envC3 : RetrievalEnv :=
  { generateEmbedding := fun _ => Except.error "embedding failure"
    vectorSearch := fun _ _ => Except.ok [vrow1]
    hybridSearch := fun _ _ _ _ => Except.ok [hrow1]
    crossEncoder := none }

def inputC3 : HybridSearchInput := { query := ['q'], limit := 5, initial_retrieval_size := 15 }

def envC4 : RetrievalEnv :=
  { generateEmbedding := fun _ => Except.ok [1]
    vectorSearch := fun _ _ => Except.error "store down"
    hybridSearch := fun _ _ _ _ => Except.error "store down"
    crossEncoder := none }

def inputC4h : HybridSearchInput := { query := ['q'], limit := 5, initial_retrieval_size := 15 }

def inputC4v : VectorSearchInput := { query := ['q'], limit := 10 }

def envC7 : RetrievalEnv :=
  { generateEmbedding := fun _ => Except.ok [1]
    vectorSearch := fun _ _ => Except.ok [vrow1]
    hybridSearch := fun _ _ _ _ => Except.ok [hrow1]
    crossEncoder := none }

def inputC7 : HybridSearchInput := { query := ['q'], limit := 5, initial_retrieval_size := 15 }

/-- A candidate with its mutable `score` field cleared; reranking may
change only this field and the order. -/
def eraseScore (c : ChunkResult) : ChunkResult := { c with score := 0 }

/-- A value of a fragment's open string-keyed `metadata` map: either a
plain string or the nested category→terms map stored under `entities`. -/
inductive MetaVal where
  | str : String → MetaVal
  | entities : List (String × List Chars) → MetaVal
deriving DecidableEq

/-- Modelled from the spec (§3 Fragment): the `DocumentChunk` data class
of the chunker module, which is an external collaborator absent from the
sources; fields are those read by `ingest.py` / `graph_builder.py`. -/
structure DocumentChunk where
  content : Chars
  index : Nat
  start_char : Nat
  end_char : Nat
  metadata : List (String × MetaVal)
  token_count : Nat
  embedding : Option (List ℚ) := none
deriving DecidableEq

/-- Python dict update `{**m, k: v}` on an association list. -/
def dictSet (m : List (String × MetaVal)) (k : String) (v : MetaVal) :
    List (String × MetaVal) :=
  (m.filter fun p => !(p.1 == k)) ++ [(k, v)]

/-- Python dict lookup `m.get(k)` on an association list. -/
def dictGet (m : List (String × MetaVal)) (k : String) : Option MetaVal :=
  (m.find? fun p => p.1 == k).map fun p => p.2

/-- The `entities` dictionary built per chunk by
`GraphBuilder.extract_entities_from_chunks`: always the four medical
categories, with the selectable ones emptied when disabled. -/
def extractedEntities (el : EntityLists)
    (extract_anatomical extract_pathological extract_treatments : Bool)
    (content : Chars) : List (String × List Chars) :=
  [("anatomical_structures",
      if extract_anatomical then extractAnatomicalStructures el content else []),
   ("pathological_conditions",
      if extract_pathological then extractPathologicalConditions el content else []),
   ("treatment_procedures",
      if extract_treatments then extractTreatmentProcedures el content else []),
   ("medical_devices", extractMedicalDevices el content)]

/-- `GraphBuilder.extract_entities_from_chunks`: each chunk is rebuilt
with `entities` and `entity_extraction_date` merged into its metadata
(the wall-clock date is modelled by a fixed string; no claim reads it). -/
def extract_entities_from_chunks (el : EntityLists) (chunks : List DocumentChunk)
    (extract_anatomical : Bool := true) (extract_pathological : Bool := true)
    (extract_treatments : Bool := true) : List DocumentChunk :=
  chunks.map fun chunk =>
    { chunk with
        metadata :=
          dictSet
            (dictSet chunk.metadata "entities"
              (MetaVal.entities (extractedEntities el extract_anatomical
                extract_pathological extract_treatments chunk.content)))
            "entity_extraction_date" (MetaVal.str "") }

/-- The per-chunk access `chunk.metadata.get("entities", {}).get(cat, [])`
of `ingest.py` (a non-dict `entities` value yields `[]`; unreachable
after extraction). -/
def entitiesLookup (md : List (String × MetaVal)) (cat : String) : List Chars :=
  match dictGet md "entities" with
  | some (MetaVal.entities m) => ((m.find? fun p => p.1 == cat).map fun p => p.2).getD []
  | _ => []

/-- The `entities_extracted` counter of
`DocumentIngestionPipeline._ingest_single_document`: it sums the
`companies`, `technologies` and `people` categories. -/
def countNamedEntities (chunks : List DocumentChunk) : Nat :=
  (chunks.map fun chunk =>
    (entitiesLookup chunk.metadata "companies").length +
    (entitiesLookup chunk.metadata "technologies").length +
    (entitiesLookup chunk.metadata "people").length).sum

/-- `IngestionConfig` (`src/agent/models.py`), the fields the pipeline reads. -/
structure IngestionConfig where
  chunk_size : Nat := 1000
  chunk_overlap : Nat := 200
  max_chunk_size : Nat := 2000
  use_semantic_chunking : Bool := true
  extract_entities : Bool := true
  skip_graph_building : Bool := false

/-- `IngestionResult` (`src/agent/models.py`). -/
structure IngestionResult where
  document_id : String
  title : String
  chunks_created : Nat
  entities_extracted : Nat
  relationships_created : Nat
  processing_time_ms : ℚ
  errors : List String
deriving DecidableEq

/-- The per-fragment error message of `GraphBuilder.add_document_to_graph`. -/
def episodeErrorMessage (idx : Nat) (e : String) : String :=
  "Failed to add chunk " ++ toString idx ++ " to graph: " ++ e

/-- The result dictionary of `GraphBuilder.add_document_to_graph`. -/
structure GraphResult where
  episodes_created : Nat
  total_chunks : Nat
  errors : List String
deriving DecidableEq

/-- The sequential episode loop of `GraphBuilder.add_document_to_graph`:
`write` is the external `graph_client.add_episode` outcome per chunk
(`some e` models a raised exception with message `str(e)`); a failure is
appended to the error list and the loop continues. -/
def graphLoop (write : DocumentChunk → Option String) :
    List DocumentChunk → Nat × List String → Nat × List String
  | [], acc => acc
  | chunk :: rest, acc =>
      match write chunk with
      | none => graphLoop write rest (acc.1 + 1, acc.2)
      | some e => graphLoop write rest (acc.1, acc.2 ++ [episodeErrorMessage chunk.index e])

/-- `GraphBuilder.add_document_to_graph` (the empty early return
coincides with the loop on `[]`; the pacing sleep and the episode id,
built from source, index and wall-clock, carry no claim content). -/
def add_document_to_graph (write : DocumentChunk → Option String)
    (chunks : List DocumentChunk) : GraphResult :=
  { episodes_created := (graphLoop write chunks (0, [])).1
    total_chunks := chunks.length
    errors := (graphLoop write chunks (0, [])).2 }

/-- The external-world outcomes of one document's ingestion run:
`content` is the `_read_document` result (empty = unreadable/empty),
`chunks` the external chunker's output, `embedFail`/`embedVec` the
embedding provider, `saveOutcome` the `_save_to_postgres` transaction,
`graphCallError` an exception raised by the graph call itself, and
`graphWrite` the per-episode store outcome. -/
structure DocumentEnv where
  file_name : String
  title : String
  content : Chars
  chunks : List DocumentChunk
  embedFail : Option String
  embedVec : Chars → List ℚ
  saveOutcome : Except String String
  graphCallError : Option String
  graphWrite : DocumentChunk → Option String

/-- Modelled from the spec (§6, §4.7): `embed_chunks` of the absent
embedder module — every fragment gets its provider vector; a provider
failure propagates as an error with no partial vectors. -/
def embed_chunks (env : DocumentEnv) (chunks : List DocumentChunk) :
    Except String (List DocumentChunk) :=
  match env.embedFail with
  | some e => Except.error e
  | none => Except.ok (chunks.map fun c => { c with embedding := some (env.embedVec c.content) })

/-- The chunk list flowing through the pipeline after the optional
entity-extraction stage. -/
def pipelineChunks (cfg : IngestionConfig) (el : EntityLists) (env : DocumentEnv) :
    List DocumentChunk :=
  if cfg.extract_entities then extract_entities_from_chunks el env.chunks else env.chunks

/-- The graph-building stage of `_ingest_single_document`: skipped by
configuration, its `try`/`except` wrapping, and the delegation to
`add_document_to_graph`; returns `(relationships_created, graph_errors)`. -/
def graphStage (cfg : IngestionConfig) (env : DocumentEnv)
    (embedded_chunks : List DocumentChunk) : Nat × List String :=
  if cfg.skip_graph_building then (0, [])
  else
    match env.graphCallError with
    | some e => (0, ["Failed to add to knowledge graph: " ++ e])
    | none =>
        ((add_document_to_graph env.graphWrite embedded_chunks).episodes_created,
         (add_document_to_graph env.graphWrite embedded_chunks).errors)

/-- `DocumentIngestionPipeline._ingest_single_document`: read and chunk
short-circuits, optional entity extraction, embedding and persistence
(whose exceptions propagate), then the graph stage; the result carries
the graph errors only. -/
def ingestSingleDocument (cfg : IngestionConfig) (el : EntityLists) (env : DocumentEnv) :
    Except String IngestionResult :=
  if env.content = [] then
    Except.ok
      { document_id := "", title := env.file_name, chunks_created := 0,
        entities_extracted := 0, relationships_created := 0, processing_time_ms := 0,
        errors := ["Document is empty or could not be read."] }
  else if env.chunks = [] then
    Except.ok
      { document_id := "", title := env.title, chunks_created := 0,
        entities_extracted := 0, relationships_created := 0, processing_time_ms := 0,
        errors := ["No chunks created"] }
  else
    match embed_chunks env (pipelineChunks cfg el env) with
    | Except.error e => Except.error e
    | Except.ok embedded_chunks =>
      match env.saveOutcome with
      | Except.error e => Except.error e
      | Except.ok document_id =>
          Except.ok
            { document_id := document_id
              title := env.title
              chunks_created := (pipelineChunks cfg el env).length
              entities_extracted :=
                if cfg.extract_entities then
                  countNamedEntities (extract_entities_from_chunks el env.chunks)
                else 0
              relationships_created := (graphStage cfg env embedded_chunks).1
              processing_time_ms := 0
              errors := (graphStage cfg env embedded_chunks).2 }

/-- The per-document result as recorded by
`DocumentIngestionPipeline.ingest_documents`: an exception escaping
`_ingest_single_document` is caught and recorded as a zero-count result
with one error. -/
def ingestDocumentReported (cfg : IngestionConfig) (el : EntityLists) (env : DocumentEnv) :
    IngestionResult :=
  match ingestSingleDocument cfg el env with
  | Except.ok r => r
  | Except.error e =>
      { document_id := "", title := env.file_name, chunks_created := 0,
        entities_extracted := 0, relationships_created := 0, processing_time_ms := 0,
        errors := [e] }

/-- A fragment with concrete index, used by the C5 scenario. -/
def c5Chunk (i : Nat) : DocumentChunk :=
  { content := ['x'], index := i, start_char := 0, end_char := 1, metadata := [],
    token_count := 1 }

/-- The C5 scenario write oracle: the graph write raises exactly on
fragment index 2. -/
def c5Write : DocumentChunk → Option String :=
  fun c => if c.index = 2 then some "graph write failure" else none

/-- The C10 witness dictionary/environment: the fragment content
matches a medical-device dictionary term, yet the counter reports 0. -/
def elC10 : EntityLists :=
  { anatomical_structures := [], pathological_conditions := [],
    treatment_procedures := [], medical_devices := [['x']] }

def chunkC10 : DocumentChunk :=
  { content := ['x'], index := 0, start_char := 0, end_char := 1, metadata := [],
    token_count := 1 }

def envC10 : DocumentEnv :=
  { file_name := "doc.md", title := "Doc", content := ['x'], chunks := [chunkC10],
    embedFail := none, embedVec := fun _ => [], saveOutcome := Except.ok "id-1",
    graphCallError := none, graphWrite := fun _ => none }

def cfgC10 : IngestionConfig := {}

/-- The C2 counterexample environment: readable content and one
fragment, but the embedding provider raises. -/
def chunkC2 : DocumentChunk :=
  { content := ['x'], index := 0, start_char := 0, end_char := 1, metadata := [],
    token_count := 1 }

def envC2 : DocumentEnv :=
  { file_name := "doc.md", title := "Doc", content := ['x'], chunks := [chunkC2],
    embedFail := some "embedding provider failure", embedVec := fun _ => [],
    saveOutcome := Except.ok "id-1", graphCallError := none, graphWrite := fun _ => none }

def cfgC2 : IngestionConfig := {}

def elC2 : EntityLists :=
  { anatomical_structures := [], pathological_conditions := [],
    treatment_procedures := [], medical_devices := [] }

/-- The C2 witness environment: all stages up to Persist succeed and
every graph write fails; `chunks_created` still counts the fragment. -/
def envC2ok : DocumentEnv :=
  { file_name := "doc.md", title := "Doc", content := ['x'], chunks := [chunkC2],
    embedFail := none, embedVec := fun _ => [], saveOutcome := Except.ok "id-1",
    graphCallError := none, graphWrite := fun _ => some "graph down" }

/-! ## Lemmas and claim theorems -/

lemma containsSub_iff (pat text : Chars) :
    containsSub pat text = true ↔ OccursIn pat text := by
  unfold containsSub OccursIn
  rw [List.any_eq_true]
  constructor
  · rintro ⟨i, hi, hb⟩
    rw [beq_iff_eq] at hb
    refine ⟨text.take i, text.drop (i + pat.length), ?_⟩
    conv_lhs => rw [← List.take_append_drop i text]
    rw [← List.drop_drop]
    conv_lhs => rw [← List.take_append_drop pat.length (text.drop i)]
    rw [hb, List.append_assoc]
  · rintro ⟨s, t, rfl⟩
    refine ⟨s.length, ?_, ?_⟩
    · rw [List.mem_range]
      simp [List.length_append]
      omega
    · rw [beq_iff_eq, List.append_assoc, List.drop_left, List.take_left]

lemma boundaryAt_le_length {text : Chars} {p : Nat}
    (h : boundaryAt text p = true) : p ≤ text.length := by
  by_contra hgt
  push_neg at hgt
  have h1 : wordAt text p = false := by
    unfold wordAt
    rw [List.get?_eq_none.2 (by omega)]
  have h2 : (if p = 0 then false else wordAt text (p - 1)) = false := by
    split
    · rfl
    · unfold wordAt
      rw [List.get?_eq_none.2 (by omega)]
  rw [boundaryAt, h1, h2] at h
  simp at h

lemma matchWordBounded_iff (pat text : Chars) :
    matchWordBounded pat text = true ↔
      ∃ i, (text.drop i).take pat.length = pat ∧
        boundaryAt text i = true ∧ boundaryAt text (i + pat.length) = true := by
  unfold matchWordBounded
  rw [List.any_eq_true]
  constructor
  · rintro ⟨i, _, hb⟩
    rw [Bool.and_eq_true, Bool.and_eq_true, beq_iff_eq] at hb
    exact ⟨i, hb.1.1, hb.1.2, hb.2⟩
  · rintro ⟨i, h1, h2, h3⟩
    refine ⟨i, ?_, ?_⟩
    · rw [List.mem_range]
      have := boundaryAt_le_length h2
      omega
    · rw [Bool.and_eq_true, Bool.and_eq_true, beq_iff_eq]
      exact ⟨⟨h1, h2⟩, h3⟩

/-- C9: for every fragment text and dictionary term, entity matching is
case-insensitive in all four categories (both sides are compared through
`lowerChars`); an anatomical-structure term is matched only when it
occurs delimited by regex word boundaries, while a term of the other
three categories is matched whenever it occurs as a plain substring. -/
theorem c9_entity_matching_rules (el : EntityLists) (text term : Chars) :
    (term ∈ extractAnatomicalStructures el text ↔
      term ∈ el.anatomical_structures ∧
      ∃ i, ((lowerChars text).drop i).take (lowerChars term).length = lowerChars term ∧
        boundaryAt (lowerChars text) i = true ∧
        boundaryAt (lowerChars text) (i + (lowerChars term).length) = true) ∧
    (term ∈ extractPathologicalConditions el text ↔
      term ∈ el.pathological_conditions ∧
        OccursIn (lowerChars term) (lowerChars text)) ∧
    (term ∈ extractTreatmentProcedures el text ↔
      term ∈ el.treatment_procedures ∧
        OccursIn (lowerChars term) (lowerChars text)) ∧
    (term ∈ extractMedicalDevices el text ↔
      term ∈ el.medical_devices ∧
        OccursIn (lowerChars term) (lowerChars text)) := by
  refine ⟨?_, ?_, ?_, ?_⟩
  · rw [extractAnatomicalStructures, List.mem_filter, matchWordBounded_iff]
  · rw [extractPathologicalConditions, List.mem_filter, containsSub_iff]
  · rw [extractTreatmentProcedures, List.mem_filter, containsSub_iff]
  · rw [extractMedicalDevices, List.mem_filter, containsSub_iff]

lemma lastSentenceEndAux_bound :
    ∀ (l : Chars) (i : Nat) (acc : Option Nat),
      (∀ q, acc = some q → q + 2 ≤ i + l.length) →
      ∀ p, lastSentenceEndAux l i acc = some p → p + 2 ≤ i + l.length := by
  intro l
  induction l with
  | nil =>
      intro i acc hacc p hp
      exact hacc p hp
  | cons c1 tl ih =>
      intro i acc hacc p hp
      cases tl with
      | nil =>
          exact hacc p hp
      | cons c2 rest =>
          rw [lastSentenceEndAux] at hp
          have h2 := ih (i + 1)
            (if (c1 == '.' || c1 == '!' || c1 == '?') && c2 == ' ' then some i else acc)
            (by
              intro q hq
              split at hq
              · injection hq with h
                subst h
                simp [List.length_cons]
                omega
              · have := hacc q hq
                simp [List.length_cons] at this ⊢
                omega)
            p hp
          simp [List.length_cons] at h2 ⊢
          omega

lemma lastSentenceEnd_bound {l : Chars} {p : Nat}
    (h : lastSentenceEnd l = some p) : p + 2 ≤ l.length := by
  have := lastSentenceEndAux_bound l 0 none (by intro q hq; cases hq) p h
  omega

lemma prepareEpisodeContent_length_le (title content marker : Chars)
    (h1 : (truncateContent content).length ≤ maxContentLength + marker.length)
    (h2 : 12 ≤ marker.length) :
    (prepareEpisodeContent title content).length ≤ maxContentLength + marker.length := by
  have hm : maxContentLength = 6000 := rfl
  unfold prepareEpisodeContent
  split
  · next hcond =>
      obtain ⟨-, hlen⟩ := hcond
      rw [List.length_append, List.length_append, List.length_append]
      have ht : (title.take 50).length ≤ 50 := by
        rw [List.length_take]; omega
      have e1 : ("[Doc: ").toList.length = 6 := rfl
      have e2 : ("]\n\n").toList.length = 3 := rfl
      omega
  · exact h1

lemma lastSentenceEndAux_skip (c : Char)
    (h1 : (c == '.' || c == '!' || c == '?') = false) :
    ∀ (n : Nat) (rest : Chars) (i : Nat) (acc : Option Nat),
      lastSentenceEndAux (List.replicate n c ++ rest) i acc =
        lastSentenceEndAux rest (i + n) acc := by
  intro n
  induction n with
  | zero =>
      intro rest i acc
      simp [List.replicate]
  | succ m ih =>
      intro rest i acc
      rw [List.replicate_succ, List.cons_append]
      cases hm : List.replicate m c ++ rest with
      | nil =>
          obtain ⟨hm1, hm2⟩ := List.append_eq_nil.1 hm
          have hm0 : m = 0 := by
            have := congrArg List.length hm1
            simpa using this
          subst hm2
          subst hm0
          rfl
      | cons d tl =>
          rw [lastSentenceEndAux]
          have hcond : ((c == '.' || c == '!' || c == '?') && d == ' ') = false := by
            rw [h1, Bool.false_and]
          rw [hcond]
          rw [if_neg (by simp), ← hm, ih rest (i + 1) acc]
          have : i + 1 + m = i + (m + 1) := by omega
          rw [this]

lemma c6Content_length : c6Content.length = 6001 := by
  rw [c6Content, List.length_append, List.length_replicate, List.length_cons,
    List.length_cons, List.length_replicate]

lemma c6Content_take_6000 :
    c6Content.take 6000 = List.replicate 4500 'a' ++ '.' :: ' ' :: List.replicate 1498 'b' := by
  rw [c6Content, List.take_append_eq_append_take, List.take_replicate, List.length_replicate]
  norm_num

lemma c6Content_take_4501 :
    c6Content.take 4501 = List.replicate 4500 'a' ++ ['.'] := by
  rw [c6Content, List.take_append_eq_append_take, List.take_replicate, List.length_replicate]
  norm_num

lemma c6Content_lastSentenceEnd :
    lastSentenceEnd (c6Content.take 6000) = some 4500 := by
  rw [c6Content_take_6000, lastSentenceEnd, lastSentenceEndAux_skip 'a' (by decide)]
  rw [lastSentenceEndAux]
  rw [if_pos (by decide)]
  rw [show (' ' :: List.replicate 1498 'b') = List.replicate 1 ' ' ++ List.replicate 1498 'b'
      from rfl,
    lastSentenceEndAux_skip ' ' (by decide)]
  rw [show List.replicate 1498 'b' = List.replicate 1498 'b' ++ ([] : Chars)
      from (List.append_nil _).symm,
    lastSentenceEndAux_skip 'b' (by decide)]
  rfl

lemma c6Content_trunc :
    truncateContent c6Content =
      (List.replicate 4500 'a' ++ ['.']) ++ (" [TRUNCATED]").toList := by
  unfold truncateContent
  rw [if_pos (by rw [c6Content_length]; simp [maxContentLength])]
  simp only [maxContentLength]
  rw [c6Content_lastSentenceEnd]
  show (if 10 * 4500 > 7 * 6000 then
      (c6Content.take 6000).take (4500 + 1) ++ (" [TRUNCATED]").toList
    else c6Content.take 6000 ++ ("... [TRUNCATED]").toList) = _
  rw [if_pos (by norm_num), List.take_take]
  norm_num
  rw [c6Content_take_4501, List.append_assoc, List.singleton_append]

lemma c6Content_trunc_length : (truncateContent c6Content).length = 4513 := by
  rw [c6Content_trunc, List.length_append, List.length_append, List.length_replicate]
  rfl

lemma c6Content_prepare :
    prepareEpisodeContent ['T'] c6Content =
      ("[Doc: ").toList ++ ['T'] ++ ("]\n\n").toList ++ truncateContent c6Content := by
  unfold prepareEpisodeContent
  rw [if_pos ⟨by simp, by rw [c6Content_trunc_length]; simp [maxContentLength]⟩]
  rfl

/-- C6 (as stated) is false: with a non-empty document title, the
builder prepends a `[Doc: ...]` context line after a sentence-boundary
cut that leaves more than 100 characters of room, so the output is not a
prefix of the original fragment content up to the cut point (index 4500
is the last sentence terminator of the truncation window, so the claimed
output would be the 4501-character prefix plus the truncation marker;
the actual output starts with the context line instead). -/
theorem c6_truncation_counterexample :
    prepareEpisodeContent ['T'] c6Content ≠
      c6Content.take 4501 ++ (" [TRUNCATED]").toList := by
  rw [c6Content_prepare, c6Content_take_4501]
  intro h
  have h2 : (("[Doc: ").toList ++ ['T'] ++ ("]\n\n").toList ++
      truncateContent c6Content).take 1 = ['['] := by
    rw [show ("[Doc: ").toList = ['[', 'D', 'o', 'c', ':', ' '] from rfl,
      List.append_assoc, List.append_assoc, List.take_append_eq_append_take]
    norm_num
  have h3 : ((List.replicate 4500 'a' ++ ['.']) ++ (" [TRUNCATED]").toList).take 1 = ['a'] := by
    rw [List.append_assoc, List.take_append_eq_append_take, List.take_replicate,
      List.length_replicate]
    norm_num
  have h1 := congrArg (List.take 1) h
  rw [h2, h3] at h1
  exact absurd h1 (by decide)

/-- C6 amended: for every fragment whose content exceeds the 6000
character limit, the truncation step (before the optional document-title
context line is prepended) returns a prefix of the original content of
length at most the limit followed by a truncation marker, cutting at the
last sentence terminator when its index exceeds 70% of the limit and at
the limit otherwise; the lengths of both the truncation step's result
and the final output (context line included) stay within limit + marker
length. -/
theorem c6_truncation_amended (title content : Chars)
    (h : content.length > maxContentLength) :
    ∃ k marker, k ≤ maxContentLength ∧
      truncateContent content = content.take k ++ marker ∧
      (marker = (" [TRUNCATED]").toList ∨ marker = ("... [TRUNCATED]").toList) ∧
      (truncateContent content).length ≤ maxContentLength + marker.length ∧
      (prepareEpisodeContent title content).length ≤ maxContentLength + marker.length ∧
      (match lastSentenceEnd (content.take maxContentLength) with
       | some p => if 10 * p > 7 * maxContentLength then k = p + 1 else k = maxContentLength
       | none => k = maxContentLength) := by
  have hm : maxContentLength = 6000 := rfl
  have hTlen : (content.take maxContentLength).length = maxContentLength := by
    rw [List.length_take]; omega
  cases hE : lastSentenceEnd (content.take maxContentLength) with
  | none =>
      have ht2 : truncateContent content =
          content.take maxContentLength ++ ("... [TRUNCATED]").toList := by
        unfold truncateContent
        rw [if_pos h, hE]
      refine ⟨maxContentLength, ("... [TRUNCATED]").toList, le_refl _, ht2, Or.inr rfl, ?_, ?_, rfl⟩
      · rw [ht2, List.length_append, hTlen]
      · refine prepareEpisodeContent_length_le title content _ ?_ (by decide)
        rw [ht2, List.length_append, hTlen]
  | some p =>
      have hp : p + 2 ≤ maxContentLength := by
        have := lastSentenceEnd_bound hE
        omega
      by_cases hc : 10 * p > 7 * maxContentLength
      · have ht2 : truncateContent content =
            content.take (p + 1) ++ (" [TRUNCATED]").toList := by
          unfold truncateContent
          rw [if_pos h, hE]
          show (if 10 * p > 7 * maxContentLength then
              (content.take maxContentLength).take (p + 1) ++ (" [TRUNCATED]").toList
            else
              content.take maxContentLength ++ ("... [TRUNCATED]").toList) = _
          rw [if_pos hc, List.take_take, min_eq_left (by omega)]
        have hlen2 : (truncateContent content).length ≤
            maxContentLength + (" [TRUNCATED]").toList.length := by
          rw [ht2, List.length_append, List.length_take]
          have e1 : (" [TRUNCATED]").toList.length = 12 := rfl
          omega
        refine ⟨p + 1, (" [TRUNCATED]").toList, by omega, ht2, Or.inl rfl, hlen2, ?_, ?_⟩
        · exact prepareEpisodeContent_length_le title content _ hlen2 (by decide)
        · show (if 10 * p > 7 * maxContentLength then p + 1 = p + 1
              else p + 1 = maxContentLength)
          rw [if_pos hc]
      · have ht2 : truncateContent content =
            content.take maxContentLength ++ ("... [TRUNCATED]").toList := by
          unfold truncateContent
          rw [if_pos h, hE]
          show (if 10 * p > 7 * maxContentLength then
              (content.take maxContentLength).take (p + 1) ++ (" [TRUNCATED]").toList
            else
              content.take maxContentLength ++ ("... [TRUNCATED]").toList) = _
          rw [if_neg hc]
        have hlen2 : (truncateContent content).length ≤
            maxContentLength + ("... [TRUNCATED]").toList.length := by
          rw [ht2, List.length_append, hTlen]
        refine ⟨maxContentLength, ("... [TRUNCATED]").toList, le_refl _, ht2, Or.inr rfl, hlen2, ?_, ?_⟩
        · exact prepareEpisodeContent_length_le title content _ hlen2 (by decide)
        · show (if 10 * p > 7 * maxContentLength then maxContentLength = p + 1
              else maxContentLength = maxContentLength)
          rw [if_neg hc]

/-- Witness for C6 amended at the concrete 6001-character content. -/
theorem c6_truncation_amended_witness :
    c6Content.length > maxContentLength ∧
      (∃ k marker, k ≤ maxContentLength ∧
        truncateContent c6Content = c6Content.take k ++ marker ∧
        (marker = (" [TRUNCATED]").toList ∨ marker = ("... [TRUNCATED]").toList) ∧
        (truncateContent c6Content).length ≤ maxContentLength + marker.length ∧
        (prepareEpisodeContent ['T'] c6Content).length ≤ maxContentLength + marker.length ∧
        (match lastSentenceEnd (c6Content.take maxContentLength) with
         | some p => if 10 * p > 7 * maxContentLength then k = p + 1 else k = maxContentLength
         | none => k = maxContentLength)) :=
  ⟨by rw [c6Content_length]; simp [maxContentLength],
   c6_truncation_amended ['T'] c6Content (by rw [c6Content_length]; simp [maxContentLength])⟩

lemma rerank_documents_none (query : Chars) (docs : List ChunkResult) :
    rerank_documents none query docs = docs := by
  unfold rerank_documents
  split
  · next h => exact h.symm
  · rfl

lemma rerank_documents_nil (ce : Option (Chars → Chars → ℚ)) (query : Chars) :
    rerank_documents ce query [] = [] := by
  unfold rerank_documents
  rw [if_pos rfl]

/-- C1 evaluated on the code: with the reranker unavailable and a pool
smaller than `limit`, `hybrid_search_tool` returns the pure-vector
search's candidate (not the Hybrid Score Fuser's, which differs at this
input), and its result does not depend on the fuser at all. The claim
(and the function's own docstring, "vector + keyword") says the
candidate pool comes from the fuser. -/
theorem c1_candidate_pool_is_pure_vector :
    hybrid_search_tool envC1 inputC1 = Except.ok [vectorRowToChunk vrow1] ∧
    vectorRowToChunk vrow1 ≠ hybridRowToChunk hrow1 ∧
    ∀ f, hybrid_search_tool { envC1 with hybridSearch := f } inputC1 =
      hybrid_search_tool envC1 inputC1 :=
  ⟨rfl, by decide, fun _ => rfl⟩

/-- C3 (as stated) is false: when the embedding call raises, the
catch-all `except` of `hybrid_search_tool` swallows the error and the
operation returns the normal empty result instead of surfacing an
error. -/
theorem c3_embedding_failure_counterexample :
    hybrid_search_tool envC3 inputC3 = Except.ok [] := rfl

/-- C3 amended: if computing the query embedding fails, the
hybrid-search operation catches the exception, logs it, and returns an
empty result list; no error surfaces to its caller. -/
theorem c3_embedding_failure_amended (env : RetrievalEnv) (input : HybridSearchInput)
    (e : String) (h : env.generateEmbedding input.query = Except.error e) :
    hybrid_search_tool env input = Except.ok [] := by
  unfold hybrid_search_tool hybridSearchToolBody
  rw [h]

/-- Witness for C3 amended at a concrete failing environment. -/
theorem c3_embedding_failure_witness :
    envC3.generateEmbedding inputC3.query = Except.error "embedding failure" ∧
      hybrid_search_tool envC3 inputC3 = Except.ok [] :=
  ⟨rfl, c3_embedding_failure_amended envC3 inputC3 "embedding failure" rfl⟩

/-- C4: when the retrieval store call raises, both search tools catch
the error (it is logged by the `except` handler) and return an empty
result list; no exception reaches the caller. -/
theorem c4_store_error_returns_empty (env : RetrievalEnv) (hin : HybridSearchInput)
    (vin : VectorSearchInput) (emb1 emb2 : List ℚ) (m1 m2 : String)
    (h1 : env.generateEmbedding hin.query = Except.ok emb1)
    (h2 : env.vectorSearch emb1 hin.initial_retrieval_size = Except.error m1)
    (h3 : env.generateEmbedding vin.query = Except.ok emb2)
    (h4 : env.vectorSearch emb2 vin.limit = Except.error m2) :
    hybrid_search_tool env hin = Except.ok [] ∧
      vector_search_tool env vin = Except.ok [] := by
  constructor
  · unfold hybrid_search_tool hybridSearchToolBody
    simp only [h1, h2]
  · unfold vector_search_tool vectorSearchToolBody
    simp only [h3, h4]

/-- Witness for C4 at a concrete environment whose store call raises. -/
theorem c4_store_error_witness :
    envC4.vectorSearch [1] inputC4h.initial_retrieval_size = Except.error "store down" ∧
    envC4.vectorSearch [1] inputC4v.limit = Except.error "store down" ∧
    (hybrid_search_tool envC4 inputC4h = Except.ok [] ∧
      vector_search_tool envC4 inputC4v = Except.ok []) :=
  ⟨rfl, rfl,
    c4_store_error_returns_empty envC4 inputC4h inputC4v [1] [1] "store down" "store down"
      rfl rfl rfl rfl⟩

/-- C7 (as stated) is false in its `hybridSearch` clause: with the
reranker unavailable, `hybrid_search_tool` does not return the Hybrid
Score Fuser's candidates in the fuser's order — at this input the fuser
returns a candidate that the tool's output does not contain, because the
first stage is the pure-vector search. -/
theorem c7_fuser_order_counterexample :
    hybrid_search_tool envC7 inputC7 ≠ Except.ok [hybridRowToChunk hrow1] := by
  intro h
  rw [show hybrid_search_tool envC7 inputC7 = Except.ok [vectorRowToChunk vrow1] from rfl] at h
  have h2 : [vectorRowToChunk vrow1] = [hybridRowToChunk hrow1] := Except.ok.inj h
  exact absurd h2 (by decide)

/-- C7 amended: when the cross-encoder is unavailable the reranker is an
identity pass-through (same candidates, same scores and order), for any
model state reranking an empty input yields an empty output, and with
the reranker unavailable `hybrid_search_tool` returns the first-stage
(pure-vector) retrieval's candidates in their original store order with
scores unchanged, truncated to `limit`. -/
theorem c7_reranker_passthrough_amended :
    (∀ (query : Chars) (docs : List ChunkResult), rerank_documents none query docs = docs) ∧
    (∀ (ce : Option (Chars → Chars → ℚ)) (query : Chars), rerank_documents ce query [] = []) ∧
    (∀ (env : RetrievalEnv) (input : HybridSearchInput) (emb : List ℚ) (rows : List VectorRow),
      env.crossEncoder = none →
      env.generateEmbedding input.query = Except.ok emb →
      env.vectorSearch emb input.initial_retrieval_size = Except.ok rows →
      hybrid_search_tool env input =
        Except.ok ((rows.map vectorRowToChunk).take input.limit)) := by
  refine ⟨rerank_documents_none, rerank_documents_nil, ?_⟩
  intro env input emb rows hce h1 h2
  unfold hybrid_search_tool hybridSearchToolBody
  cases rows with
  | nil => simp [h1, h2]
  | cons r rs => simp [h1, h2, hce, rerank_documents_none]

/-- Witness for C7 amended at a concrete environment. -/
theorem c7_reranker_passthrough_witness :
    rerank_documents none ['q'] [vectorRowToChunk vrow1] = [vectorRowToChunk vrow1] ∧
    rerank_documents envC7.crossEncoder ['q'] [] = [] ∧
    hybrid_search_tool envC7 inputC7 =
      Except.ok (([vrow1].map vectorRowToChunk).take inputC7.limit) :=
  ⟨c7_reranker_passthrough_amended.1 ['q'] [vectorRowToChunk vrow1],
   c7_reranker_passthrough_amended.2.1 envC7.crossEncoder ['q'],
   c7_reranker_passthrough_amended.2.2 envC7 inputC7 [1] [vrow1] rfl rfl rfl⟩

lemma zipWith_set_score (m : Chars → Chars → ℚ) (q : Chars) :
    ∀ docs : List ChunkResult,
      List.zipWith (fun doc s => { doc with score := s }) docs
          (docs.map fun doc => m q doc.content) =
        docs.map fun doc => { doc with score := m q doc.content } := by
  intro docs
  induction docs with
  | nil => rfl
  | cons d tl ih =>
      rw [List.map_cons, List.zipWith_cons_cons, ih, List.map_cons]

/-- C8: for every non-empty candidate list, reranking returns a
permutation of exactly the same candidates — modulo the `score` field,
which (with the order) is the only thing allowed to change. -/
theorem c8_rerank_preserves_candidates (ce : Option (Chars → Chars → ℚ)) (query : Chars)
    (docs : List ChunkResult) (h : docs ≠ []) :
    List.Perm ((rerank_documents ce query docs).map eraseScore) (docs.map eraseScore) := by
  cases ce with
  | none =>
      rw [rerank_documents_none]
  | some m =>
      unfold rerank_documents
      rw [if_neg h]
      refine (List.Perm.map eraseScore (List.perm_insertionSort _ _)).trans ?_
      rw [zipWith_set_score, List.map_map]
      have hf : (eraseScore ∘ fun doc => { doc with score := m query doc.content }) =
          eraseScore := rfl
      rw [hf]

/-- Witness for C8 with an available cross-encoder on a singleton list. -/
theorem c8_rerank_preserves_candidates_witness :
    ([vectorRowToChunk vrow1] : List ChunkResult) ≠ [] ∧
      List.Perm
        ((rerank_documents (some fun _ _ => (1 : ℚ)) ['q'] [vectorRowToChunk vrow1]).map
          eraseScore)
        ([vectorRowToChunk vrow1].map eraseScore) :=
  ⟨by simp, c8_rerank_preserves_candidates (some fun _ _ => (1 : ℚ)) ['q']
    [vectorRowToChunk vrow1] (by simp)⟩

lemma graphLoop_spec (write : DocumentChunk → Option String) :
    ∀ (chunks : List DocumentChunk) (n : Nat) (es : List String),
      graphLoop write chunks (n, es) =
        (n + (chunks.filter fun c => (write c).isNone).length,
         es ++ chunks.filterMap fun c => (write c).map fun e => episodeErrorMessage c.index e) := by
  intro chunks
  induction chunks with
  | nil =>
      intro n es
      simp [graphLoop]
  | cons c tl ih =>
      intro n es
      rw [graphLoop]
      cases hw : write c <;>
        simp [hw, ih, List.filter_cons, List.filterMap_cons]
      omega

lemma filter_isNone_isSome_length (write : DocumentChunk → Option String) :
    ∀ chunks : List DocumentChunk,
      (chunks.filter fun c => (write c).isNone).length +
        (chunks.filter fun c => (write c).isSome).length = chunks.length := by
  intro chunks
  induction chunks with
  | nil => rfl
  | cons c tl ih =>
      rw [List.filter_cons, List.filter_cons]
      cases hw : write c <;> simp [hw] <;> omega

lemma filterMap_errs_length (write : DocumentChunk → Option String) :
    ∀ chunks : List DocumentChunk,
      (chunks.filterMap fun c => (write c).map fun e => episodeErrorMessage c.index e).length =
        (chunks.filter fun c => (write c).isSome).length := by
  intro chunks
  induction chunks with
  | nil => rfl
  | cons c tl ih =>
      rw [List.filterMap_cons, List.filter_cons]
      cases hw : write c <;> simp [hw, ih]

/-- C5: in the Graph Episode Writer every fragment is attempted — the
episodes created are exactly the successful writes, the error list
collects, in order, one message per failed write naming that fragment's
index, and their counts always add up to the whole batch (no abort); in
particular, for three fragments where only index 2 fails, two episodes
are created and the single error names index 2. -/
theorem c5_graph_writer_isolation :
    (∀ (write : DocumentChunk → Option String) (chunks : List DocumentChunk),
      (add_document_to_graph write chunks).episodes_created =
          (chunks.filter fun c => (write c).isNone).length ∧
        (add_document_to_graph write chunks).errors =
          (chunks.filterMap fun c => (write c).map fun e => episodeErrorMessage c.index e) ∧
        (add_document_to_graph write chunks).episodes_created +
            (add_document_to_graph write chunks).errors.length = chunks.length) ∧
    add_document_to_graph c5Write [c5Chunk 0, c5Chunk 1, c5Chunk 2] =
      { episodes_created := 2, total_chunks := 3,
        errors := ["Failed to add chunk 2 to graph: graph write failure"] } := by
  constructor
  · intro write chunks
    have h1 := graphLoop_spec write chunks 0 []
    refine ⟨?_, ?_, ?_⟩
    · rw [add_document_to_graph, h1]
      simp
    · rw [add_document_to_graph, h1]
      simp
    · rw [add_document_to_graph, h1]
      simp [filterMap_errs_length]
      rw [filter_isNone_isSome_length]
  · decide

lemma find?_dictSet (m : List (String × MetaVal)) (k : String) (v : MetaVal) :
    ((m.filter fun p => !(p.1 == k)) ++ [(k, v)]).find? (fun p => p.1 == k) = some (k, v) := by
  induction m with
  | nil => simp [List.find?]
  | cons p tl ih =>
      rw [List.filter_cons]
      split
      · next h =>
          have h2 : (p.1 == k) = false := by simpa using h
          rw [List.cons_append, List.find?_cons_of_neg _ (by simp [h2])]
          exact ih
      · exact ih

lemma dictGet_dictSet_eq (m : List (String × MetaVal)) (k : String) (v : MetaVal) :
    dictGet (dictSet m k v) k = some v := by
  unfold dictGet dictSet
  rw [find?_dictSet]
  rfl

lemma dictGet_dictSet_ne (m : List (String × MetaVal)) (k k' : String) (v : MetaVal)
    (h : (k' == k) = false) : dictGet (dictSet m k' v) k = dictGet m k := by
  unfold dictGet dictSet
  congr 1
  induction m with
  | nil =>
      simp [List.find?, h]
  | cons p tl ih =>
      rw [List.filter_cons]
      split
      · next hk =>
          rw [List.cons_append]
          cases hp : (p.1 == k) with
          | true =>
              rw [List.find?_cons_of_pos _ (by simp [hp]),
                List.find?_cons_of_pos _ (by simp [hp])]
          | false =>
              rw [List.find?_cons_of_neg _ (by simp [hp]),
                List.find?_cons_of_neg _ (by simp [hp])]
              exact ih
      · next hk =>
          have hpk' : p.1 = k' := by
            have hb : (p.1 == k') = true := by simpa using hk
            exact eq_of_beq hb
          have hpk : (p.1 == k) = false := by rw [hpk']; exact h
          rw [ih, List.find?_cons_of_neg _ (by simp [hpk])]

lemma entitiesLookup_extracted (el : EntityLists) (a b c : Bool) (content : Chars)
    (md : List (String × MetaVal)) (cat : String)
    (hfind : (extractedEntities el a b c content).find? (fun p => p.1 == cat) = none) :
    entitiesLookup
      (dictSet
        (dictSet md "entities" (MetaVal.entities (extractedEntities el a b c content)))
        "entity_extraction_date" (MetaVal.str "")) cat = [] := by
  unfold entitiesLookup
  rw [dictGet_dictSet_ne _ _ _ _ (by decide), dictGet_dictSet_eq]
  show (((extractedEntities el a b c content).find? fun p => p.1 == cat).map
      fun p => p.2).getD [] = []
  rw [hfind]
  rfl

lemma countNamedEntities_extract (el : EntityLists) (a b c : Bool)
    (chunks : List DocumentChunk) :
    countNamedEntities (extract_entities_from_chunks el chunks a b c) = 0 := by
  unfold countNamedEntities extract_entities_from_chunks
  rw [List.map_map]
  apply List.sum_eq_zero
  intro x hx
  rw [List.mem_map] at hx
  obtain ⟨ch, -, rfl⟩ := hx
  show (entitiesLookup _ "companies").length + (entitiesLookup _ "technologies").length +
      (entitiesLookup _ "people").length = 0
  rw [entitiesLookup_extracted el a b c ch.content ch.metadata "companies" rfl,
    entitiesLookup_extracted el a b c ch.content ch.metadata "technologies" rfl,
    entitiesLookup_extracted el a b c ch.content ch.metadata "people" rfl]
  rfl

/-- C10: the `entities_extracted` counter sums the `companies`,
`technologies` and `people` categories, which the extractor never
produces (it writes the four medical categories), so the returned
result always reports zero extracted entities when extraction is
enabled — however many dictionary terms were matched into metadata. -/
theorem c10_entities_extracted_always_zero (cfg : IngestionConfig) (el : EntityLists)
    (env : DocumentEnv) (h : cfg.extract_entities = true) :
    (ingestDocumentReported cfg el env).entities_extracted = 0 ∧
      countNamedEntities (extract_entities_from_chunks el env.chunks) = 0 := by
  refine ⟨?_, countNamedEntities_extract el true true true env.chunks⟩
  unfold ingestDocumentReported ingestSingleDocument
  by_cases h1 : env.content = []
  · simp [h1]
  · by_cases h2 : env.chunks = []
    · simp [h1, h2]
    · simp only [h1, h2, if_neg, if_false]
      cases hemb : embed_chunks env (pipelineChunks cfg el env) with
      | error e => simp [h1, h2, hemb]
      | ok ec =>
          cases hs : env.saveOutcome with
          | error e => simp [h1, h2, hemb, hs]
          | ok docId => simp [h1, h2, hemb, hs, h, countNamedEntities_extract]

/-- Witness for C10 at a concrete environment whose content does match
a dictionary term. -/
theorem c10_entities_extracted_witness :
    cfgC10.extract_entities = true ∧
      ((ingestDocumentReported cfgC10 elC10 envC10).entities_extracted = 0 ∧
        countNamedEntities (extract_entities_from_chunks elC10 envC10.chunks) = 0) :=
  ⟨rfl, c10_entities_extracted_always_zero cfgC10 elC10 envC10 rfl⟩

lemma pipelineChunks_length (cfg : IngestionConfig) (el : EntityLists) (env : DocumentEnv) :
    (pipelineChunks cfg el env).length = env.chunks.length := by
  unfold pipelineChunks extract_entities_from_chunks
  split
  · rw [List.length_map]
  · rfl

/-- C2 amended: the reported `chunks_created` is zero exactly when the
Read stage failed, the Chunk stage produced no fragments, or a later
escalating stage (Embed or Persist) raised — an escalating failure is
caught by the batch loop and recorded as a zero-count result; graph-only
failures (which are caught inside the document) leave `chunks_created`
at the number of fragments. -/
theorem c2_chunks_created_amended (cfg : IngestionConfig) (el : EntityLists)
    (env : DocumentEnv) :
    ((ingestDocumentReported cfg el env).chunks_created = 0 ↔
      (env.content = [] ∨ env.chunks = [] ∨ env.embedFail.isSome = true ∨
        env.saveOutcome.isOk = false)) ∧
    (env.content ≠ [] → env.chunks ≠ [] → env.embedFail = none →
      env.saveOutcome.isOk = true →
      (ingestDocumentReported cfg el env).chunks_created = env.chunks.length) := by
  by_cases h1 : env.content = []
  · constructor
    · simp [ingestDocumentReported, ingestSingleDocument, h1]
    · intro hc
      exact absurd h1 hc
  · by_cases h2 : env.chunks = []
    · constructor
      · simp [ingestDocumentReported, ingestSingleDocument, h1, h2]
      · intro _ hc
        exact absurd h2 hc
    · cases hemb : env.embedFail with
      | some e =>
          constructor
          · simp [ingestDocumentReported, ingestSingleDocument, embed_chunks, h1, h2, hemb]
          · intro _ _ hc
            simp at hc
      | none =>
          cases hs : env.saveOutcome with
          | error e =>
              constructor
              · simp [ingestDocumentReported, ingestSingleDocument, embed_chunks, h1, h2,
                  hemb, hs, Except.isOk, Except.toBool]
              · intro _ _ _ hc
                simp [Except.isOk, Except.toBool] at hc
          | ok docId =>
              have hrep : (ingestDocumentReported cfg el env).chunks_created =
                  (pipelineChunks cfg el env).length := by
                simp [ingestDocumentReported, ingestSingleDocument, embed_chunks, h1, h2,
                  hemb, hs]
              constructor
              · rw [hrep, pipelineChunks_length]
                simp [h1, h2, hemb, hs, Except.isOk, Except.toBool, List.length_eq_zero]
              · intro _ _ _ _
                rw [hrep, pipelineChunks_length]

/-- C2 (as stated) is false: here Read and Chunk both succeeded, yet the
reported result has `chunks_created = 0`, because the embedding-stage
exception escapes `_ingest_single_document` and the batch loop records a
zero-count result — so `chunksCreated == 0` does not imply that Read or
Chunk failed. -/
theorem c2_chunks_created_counterexample :
    envC2.content ≠ [] ∧ envC2.chunks ≠ [] ∧
      (ingestDocumentReported cfgC2 elC2 envC2).chunks_created = 0 :=
  ⟨by decide, by decide, rfl⟩

/-- Witness for C2 amended: a graph-only failure leaves `chunks_created`
unchanged at the fragment count. -/
theorem c2_chunks_created_witness :
    envC2ok.content ≠ [] ∧ envC2ok.chunks ≠ [] ∧ envC2ok.embedFail = none ∧
      envC2ok.saveOutcome.isOk = true ∧
      (ingestDocumentReported cfgC2 elC2 envC2ok).chunks_created = envC2ok.chunks.length :=
  ⟨by decide, by decide, rfl, rfl,
    (c2_chunks_created_amended cfgC2 elC2 envC2ok).2 (by decide) (by decide) rfl rfl⟩

end FisioRag

